import Mathlib

set_option maxRecDepth 8000

/-!
Verification of the Directorizer design document against `src/main.cpp`.

The program's names are modelled as lists of characters (the source works
on `std::wstring`; file bytes are UTF-8 encodings of those characters, and
the encoding is a bijection on the characters we reason about, so the
character level is faithful).  File byte contents are modelled as lists of
naturals.  Loops are written as structural recursions on the unread
suffixes, with an explicit fuel bound where the source loop's variant is
the pair of cursors.
-/

/-! ## NaturalLess (main.cpp lines 46-78) -/

/-- Separator test `IsSep` (main.cpp line 47): space, underscore, hyphen,
period. -/
def IsSep (c : Char) : Bool := c == ' ' || c == '_' || c == '-' || c == '.'

/-- Digit test `iswdigit` under the default C locale: the ASCII decimal
digits, code points 48 to 57. -/
def IsDigitCh (c : Char) : Bool := decide (48 ≤ c.toNat ∧ c.toNat ≤ 57)

/-- Case fold `towlower` under the default C locale: folds ASCII A-Z
(code points 65 to 90) down by 32, leaves everything else. -/
def ToLowerCh (c : Char) : Char :=
  if decide (65 ≤ c.toNat ∧ c.toNat ≤ 90) then Char.ofNat (c.toNat + 32) else c

/-- One step of the digit accumulator `va = va*10 + (a[ia] - L'0')`
(main.cpp line 63).  The accumulator is an `unsigned long long`, so each
step wraps modulo 2^64. -/
def digitStep (v : Nat) (c : Char) : Nat := (v * 10 + (c.toNat - 48)) % (2 ^ 64)

/-- Value accumulated for a maximal digit run (main.cpp lines 61-64). -/
def runVal (run : List Char) : Nat := run.foldl digitStep 0

/-- Modelled from the spec: the "numeric magnitude" of a digit run
(spec section 4.1 step 3), read with no machine-word bound.  This is a
comparison definition only; the source's accumulator is `runVal`. -/
def specMagnitude (run : List Char) : Nat :=
  run.foldl (fun v c => v * 10 + (c.toNat - 48)) 0

/-- Body of `NaturalLess` (main.cpp lines 50-78) on the unread suffixes
`as = a[i..]`, `bs = b[j..]`.  Every loop iteration that recurses consumes
at least one character from each suffix, so `a.length + b.length + 1`
units of fuel always suffice; the fuel-exhausted value is never reached.

Step by step: the outer `if` is the `while (i < na && j < nb)` test, whose
failure returns `(na - i) < (nb - j)` on the raw remaining lengths; then
both cursors skip separators (lines 53-54); the next `if` is the
`break` on line 55, again returning the remaining-length comparison; the
digit branch (lines 60-70) consumes the two maximal digit runs and
decides by wrapped value, then by run length, else continues; the
character branch (lines 72-75) decides by case-folded characters, else
advances both cursors. -/
def NaturalLessFuel : Nat → List Char → List Char → Bool
  | 0, _, _ => false
  | fuel + 1, as, bs =>
    if as = [] ∨ bs = [] then decide (as.length < bs.length)
    else
      let as1 := as.dropWhile IsSep
      let bs1 := bs.dropWhile IsSep
      if as1 = [] ∨ bs1 = [] then decide (as1.length < bs1.length)
      else
        if IsDigitCh as1.headI && IsDigitCh bs1.headI then
          if runVal (as1.takeWhile IsDigitCh) ≠ runVal (bs1.takeWhile IsDigitCh) then
            decide (runVal (as1.takeWhile IsDigitCh) < runVal (bs1.takeWhile IsDigitCh))
          else if (as1.takeWhile IsDigitCh).length ≠ (bs1.takeWhile IsDigitCh).length then
            decide ((as1.takeWhile IsDigitCh).length < (bs1.takeWhile IsDigitCh).length)
          else NaturalLessFuel fuel (as1.dropWhile IsDigitCh) (bs1.dropWhile IsDigitCh)
        else
          if ToLowerCh as1.headI ≠ ToLowerCh bs1.headI then
            decide (ToLowerCh as1.headI < ToLowerCh bs1.headI)
          else NaturalLessFuel fuel as1.tail bs1.tail

/-- Comparator `NaturalLess` (main.cpp line 50): both cursors start at 0. -/
def NaturalLess (a b : List Char) : Bool :=
  NaturalLessFuel (a.length + b.length + 1) a b

/-! ## DirectoryScanner (main.cpp lines 81-95) -/

/-- Kind of a directory entry, as classified by `entry.is_regular_file`. -/
inductive FileKind
  | regular
  | directory
  | special
deriving DecidableEq

/-- One direct child of the scanned directory. -/
structure DirEntry where
  name : List Char
  kind : FileKind
deriving DecidableEq

/-- Prefix test `s.rfind(key, 0) == 0` (main.cpp lines 92 and 162-164):
whether `key` occurs at position 0 of `s`, comparing character by
character. -/
def keyMatch (key s : List Char) : Bool :=
  match key with
  | [] => true
  | k :: ks =>
    match s with
    | [] => false
    | c :: cs => k == c && keyMatch ks cs

/-- The fixed filter literal `L"bf2savefile"` (main.cpp line 92). -/
def bf2Token : List Char := ("bf2savefile").data

/-- The fixed active-file literal `L"bf2savefile.sav"` (main.cpp line 255). -/
def activeName : List Char := ("bf2savefile.sav").data

/-- The scan-and-filter part of `PopulateFileDropdown` (main.cpp lines
84-95): the `files` vector as built before the sort on line 97.
`dirExists` and `dirIsDir` are the two checks on line 85 (either failing
returns with the dropdown left empty); `readable = false` models a
directory whose listing cannot be obtained (`directory_iterator`
construction error, or permission denied under `skip_permission_denied`):
no entries are iterated.  An entry is kept when it is a regular file
(line 90) and `name.rfind(L"bf2savefile", 0) == 0` (line 92), i.e. the
raw name has the literal as a prefix at position 0, case-sensitively. -/
def scanCandidates (dirExists dirIsDir readable : Bool) (entries : List DirEntry) :
    List (List Char) :=
  if !dirExists || !dirIsDir then []
  else if !readable then []
  else
    (entries.filter
      (fun e => decide (e.kind = FileKind.regular) && keyMatch bf2Token e.name)).map
      DirEntry.name

/-! ## Ranker (main.cpp line 97) -/

/-- Sortedness with respect to `NaturalLess`, adjacent-pair form: no
element is `NaturalLess` than its predecessor. -/
def sortedByNatural : List (List Char) → Bool
  | [] => true
  | [_] => true
  | x :: y :: rest => !NaturalLess y x && sortedByNatural (y :: rest)

/-- Postcondition of `std::sort(files.begin(), files.end(), NaturalLess)`
(main.cpp line 97): the output is some permutation of the input that is
ordered by the comparator.  The C++ standard guarantees nothing further
for `std::sort`; in particular it does not guarantee stability (that is
what `std::stable_sort` is for), so equal-comparing elements may come out
in either order. -/
def SortOutcome (inp out : List (List Char)) : Prop :=
  inp.Perm out ∧ sortedByNatural out = true

/-! ## ConfigStore (main.cpp lines 136-142 and 152-165) -/

/-- Persisted state: last directory, last file, pin flag. -/
structure PersistedState where
  directory : List Char
  fileName : List Char
  pin : Bool
deriving DecidableEq

/-- Byte content written to `config.txt` by `SaveConfig` (main.cpp lines
136-142): three `key=value` lines, each terminated by a newline, fully
replacing any prior content.  (`ToUtf8` is a bijection from the character
sequences onto their UTF-8 byte strings, and the byte 0x0A occurs in
UTF-8 only as the encoding of U+000A, so the character level is
faithful.) -/
def saveConfigContent (folder file : List Char) (pin : Bool) : List Char :=
  (("directory=").data ++ folder) ++ '\n' ::
    ((("file=").data ++ file) ++ '\n' ::
      ((("pin=").data ++ (if pin then ['1'] else ['0'])) ++ '\n' :: []))

/-- The lines yielded by the `while (std::getline(in, line))` loop
(main.cpp line 161) on a given file content: segments split at each
newline with the terminator consumed; a final unterminated segment is
still yielded, and empty content yields no lines. -/
def getLines : List Char → List (List Char)
  | [] => []
  | c :: cs =>
    if c = '\n' then [] :: getLines cs
    else
      match getLines cs with
      | [] => [[c]]
      | l :: ls => (c :: l) :: ls

/-- Parse of the `pin=` value (main.cpp line 164):
`line.size() > 4 && line[4] == '1'`. -/
def pinOfLine (line : List Char) : Bool :=
  match line.drop 4 with
  | c :: _ => c == '1'
  | [] => false

/-- One iteration of the parse loop in `LoadConfig` (main.cpp lines
161-165): `line.rfind(key, 0) == 0` is a prefix test at position 0, and
the matching value overwrites the field (last occurrence wins). -/
def applyConfigLine (st : PersistedState) (line : List Char) : PersistedState :=
  if keyMatch (("directory=").data) line then { st with directory := line.drop 10 }
  else if keyMatch (("file=").data) line then { st with fileName := line.drop 5 }
  else if keyMatch (("pin=").data) line then { st with pin := pinOfLine line }
  else st

/-- The state `LoadConfig` (main.cpp lines 152-165) reads out of a config
file content: fold the getline lines over the defaults
`{directory := "", file := "", pin := false}`. -/
def loadConfigContent (content : List Char) : PersistedState :=
  (getLines content).foldl applyConfigLine ⟨[], [], false⟩

/-! ## PromoteWorkflow (main.cpp lines 242-269, the IDOK handler) -/

/-- Error kinds a promote can report through `ec`. -/
inductive PromoteErr
  | sourceMissing
  | copyFailed
deriving DecidableEq

/-- Observable outcome of one IDOK ("Overwrite") activation: the directory
contents afterwards, the error code `ec` after the copy block, the
arguments `SaveConfig` was invoked with, and the content of `config.txt`
afterwards. -/
structure PromoteOutcome where
  files : List Char → Option (List Nat)
  err : Option PromoteErr
  saveCall : PersistedState
  configFile : Option (List Char)

/-- The IDOK handler of `DlgProc` (main.cpp lines 242-269).

`d` maps each name that exists in the directory (as a regular file) to its
byte content; `folder` and `sel` are the directory field text and the
dropdown selection; `pin` is the checkbox state.  `copyIoFail` models an
environmental I/O failure of `fs::copy_file` (permission, disk full,
destination locked) — on failure `ec` is set and the destination is not
replaced.  `fs::copy_file` also reports an error when source and
destination are the same file (`equivalent(from, to)`), even under
`copy_options::overwrite_existing`.  `cfgWritable` models whether
`SaveConfig`'s `std::ofstream` could open `config.txt` (line 138) and
`oldCfg` is that file's prior content: an unopenable stream writes
nothing, and `SaveConfig` returns `void` either way.

Lines 254-262: if the selection is non-empty and `fs::exists(src)` holds,
copy `src` over `folder / "bf2savefile.sav"` with overwrite; otherwise
`ec = no_such_file_or_directory`.  Line 265: `SaveConfig(folder,
selectedFile, pinChecked)` is invoked unconditionally afterwards. -/
def promoteStep (d : List Char → Option (List Nat)) (folder sel : List Char)
    (pin copyIoFail cfgWritable : Bool) (oldCfg : Option (List Char)) :
    PromoteOutcome :=
  let copied : (List Char → Option (List Nat)) × Option PromoteErr :=
    if sel ≠ [] ∧ (d sel).isSome then
      if sel = activeName then (d, some PromoteErr.copyFailed)
      else if copyIoFail then (d, some PromoteErr.copyFailed)
      else (Function.update d activeName (d sel), none)
    else (d, some PromoteErr.sourceMissing)
  { files := copied.1
    err := copied.2
    saveCall := ⟨folder, sel, pin⟩
    configFile := if cfgWritable then some (saveConfigContent folder sel pin) else oldCfg }

/-- The transient status label (main.cpp line 267):
`ec ? L"Failed" : L"Success!"`. -/
def statusText (o : PromoteOutcome) : List Char :=
  if o.err.isSome then ("Failed").data else ("Success!").data

/-- A small concrete directory used by witnesses: one candidate file
`bf2savefile1.sav` with content `[1]`. -/
def demoDir : List Char → Option (List Nat) :=
  fun n => if n = ("bf2savefile1.sav").data then some [1] else none

/-! ## Helper lemmas -/

/-- Digit-accumulator step on a reduced value. -/
theorem digitStep_mod (v : Nat) (c : Char) :
    digitStep (v % 2 ^ 64) c = (v * 10 + (c.toNat - 48)) % 2 ^ 64 := by
  unfold digitStep
  exact ((Nat.mod_modEq v (2 ^ 64)).mul_right 10).add_right _

/-- Folding the wrapping step computes the unbounded fold reduced mod 2^64. -/
theorem foldl_digitStep_mod (run : List Char) :
    ∀ v : Nat, run.foldl digitStep (v % 2 ^ 64) =
      (run.foldl (fun x c => x * 10 + (c.toNat - 48)) v) % 2 ^ 64 := by
  induction run with
  | nil => intro v; rfl
  | cons c cs ih =>
    intro v
    simp only [List.foldl_cons]
    rw [digitStep_mod]
    exact ih (v * 10 + (c.toNat - 48))

/-- The 64-bit accumulator of the source computes the spec's magnitude
reduced modulo 2^64. -/
theorem runVal_mod (run : List Char) : runVal run = specMagnitude run % 2 ^ 64 := by
  have h := foldl_digitStep_mod run 0
  simpa [runVal, specMagnitude] using h

/-- An all-digit run's magnitude is below 10 to its length. -/
theorem foldl_digit_lt (run : List Char) :
    ∀ v : Nat, (∀ c ∈ run, IsDigitCh c = true) →
      run.foldl (fun x c => x * 10 + (c.toNat - 48)) v < (v + 1) * 10 ^ run.length := by
  induction run with
  | nil => intro v _; simpa using Nat.lt_succ_self v
  | cons c cs ih =>
    intro v h
    have hc := h c (List.mem_cons_self c cs)
    have hd : c.toNat - 48 ≤ 9 := by
      simp only [IsDigitCh, decide_eq_true_eq] at hc
      omega
    have h' : ∀ x ∈ cs, IsDigitCh x = true := fun x hx => h x (List.mem_cons_of_mem _ hx)
    simp only [List.foldl_cons, List.length_cons]
    refine lt_of_lt_of_le (ih (v * 10 + (c.toNat - 48)) h') ?_
    calc (v * 10 + (c.toNat - 48) + 1) * 10 ^ cs.length
        ≤ ((v + 1) * 10) * 10 ^ cs.length := Nat.mul_le_mul_right _ (by omega)
      _ = (v + 1) * 10 ^ (cs.length + 1) := by rw [pow_succ]; ring

/-- Magnitude bound for all-digit runs. -/
theorem specMagnitude_lt (run : List Char) (h : ∀ c ∈ run, IsDigitCh c = true) :
    specMagnitude run < 10 ^ run.length := by
  have := foldl_digit_lt run 0 h
  simpa [specMagnitude] using this

/-! ## C9 -/

/-- C9 (amended): when the scan reaches the end of at least one string,
`NaturalLess` compares the raw remaining-character counts at the point
the loop exited.  Separators are skipped only at the top of an iteration
entered with both cursors still in bounds: if the loop exits at the
`while` condition (first conjunct), the remaining counts are taken as-is,
with no further separator-skipping of the longer string's remainder; if
it exits at the `break` after skipping (second conjunct), the counts are
those after that skip.  Equal counts give Equal (`false` both ways). -/
theorem naturalLess_end_behavior :
    (∀ as bs : List Char, as = [] ∨ bs = [] →
      NaturalLess as bs = decide (as.length < bs.length)) ∧
    (∀ as bs : List Char, as ≠ [] → bs ≠ [] →
      (as.dropWhile IsSep = [] ∨ bs.dropWhile IsSep = []) →
      NaturalLess as bs =
        decide ((as.dropWhile IsSep).length < (bs.dropWhile IsSep).length)) := by
  constructor
  · intro as bs h
    simp only [NaturalLess, NaturalLessFuel]
    rw [if_pos h]
  · intro as bs h1 h2 hd
    have hcond : ¬ (as = [] ∨ bs = []) := by
      rintro (e | e)
      · exact h1 e
      · exact h2 e
    simp only [NaturalLess, NaturalLessFuel]
    rw [if_neg hcond, if_pos hd]

/-- C9 (witness): instances of both exit paths. -/
theorem naturalLess_end_behavior_witness :
    NaturalLess [] ['a'] = decide (([] : List Char).length < (['a'] : List Char).length) ∧
    NaturalLess ['-'] ['a'] =
      decide ((List.dropWhile IsSep ['-']).length < (List.dropWhile IsSep ['a']).length) :=
  ⟨naturalLess_end_behavior.1 [] ['a'] (Or.inl rfl),
   naturalLess_end_behavior.2 ['-'] ['a'] (by decide) (by decide) (Or.inl (by decide))⟩

/-- C9 (counterexample): the claim says the name with fewer remaining
characters after separator-skipping compares Less and that equal counts
compare Equal.  Take `"ab"` against `"ab--"`: the scan consumes `ab` from
both and reaches the end of the first string; the second string's
remainder `--` is all separators, so after separator-skipping both
remainders have zero characters and the claim requires Equal.  The code
exits at the `while` condition without skipping those trailing
separators and returns `(2 - 2) < (4 - 2)`, i.e. `"ab"` compares
strictly Less than `"ab--"`. -/
theorem naturalLess_end_counterexample :
    NaturalLess (("ab").data) (("ab--").data) = true ∧
    NaturalLess (("ab--").data) (("ab").data) = false ∧
    List.drop 2 (("ab--").data) = ['-', '-'] ∧
    List.dropWhile IsSep ['-', '-'] = [] := by decide

/-! ## C1 -/

/-- C1 (amended): at a comparison step where both names present a decimal
digit, the comparator consumes the two maximal digit runs and orders them
by the value accumulated in the 64-bit register, i.e. by numeric
magnitude reduced modulo 2^64 (third conjunct); when digit runs are at
most 19 characters long this reduction is the identity, so there the true
magnitude decides (fourth conjunct).  If the accumulated values are equal
but the raw run lengths differ, the run with fewer digits compares Less,
so `"2"` ranks before `"02"` (second conjunct). -/
theorem naturalLess_digit_step (as bs as2 bs2 : List Char) (a b : Char)
    (ha : as.dropWhile IsSep = a :: as2) (hb : bs.dropWhile IsSep = b :: bs2)
    (hda : IsDigitCh a = true) (hdb : IsDigitCh b = true) :
    (runVal ((a :: as2).takeWhile IsDigitCh) ≠ runVal ((b :: bs2).takeWhile IsDigitCh) →
      NaturalLess as bs =
        decide (runVal ((a :: as2).takeWhile IsDigitCh) <
          runVal ((b :: bs2).takeWhile IsDigitCh))) ∧
    (runVal ((a :: as2).takeWhile IsDigitCh) = runVal ((b :: bs2).takeWhile IsDigitCh) →
      ((a :: as2).takeWhile IsDigitCh).length ≠ ((b :: bs2).takeWhile IsDigitCh).length →
      NaturalLess as bs =
        decide (((a :: as2).takeWhile IsDigitCh).length <
          ((b :: bs2).takeWhile IsDigitCh).length)) ∧
    (∀ run : List Char, runVal run = specMagnitude run % 2 ^ 64) ∧
    (∀ run : List Char, (∀ c ∈ run, IsDigitCh c = true) → run.length ≤ 19 →
      runVal run = specMagnitude run) := by
  have hane : as ≠ [] := by
    intro e
    rw [e] at ha
    simp at ha
  have hbne : bs ≠ [] := by
    intro e
    rw [e] at hb
    simp at hb
  have hcond : ¬ (as = [] ∨ bs = []) := by
    rintro (e | e)
    · exact hane e
    · exact hbne e
  have hcons : ¬ (as.dropWhile IsSep = [] ∨ bs.dropWhile IsSep = []) := by
    rw [ha, hb]
    rintro (e | e) <;> simp at e
  have hdd : (IsDigitCh (as.dropWhile IsSep).headI &&
      IsDigitCh (bs.dropWhile IsSep).headI) = true := by
    rw [ha, hb]
    simp [hda, hdb]
  refine ⟨?_, ?_, ?_, ?_⟩
  · intro hv
    simp only [NaturalLess, NaturalLessFuel]
    rw [if_neg hcond, if_neg hcons, if_pos hdd, ha, hb, if_pos hv]
  · intro hveq hlen
    have hveq' : ¬ (runVal ((as.dropWhile IsSep).takeWhile IsDigitCh) ≠
        runVal ((bs.dropWhile IsSep).takeWhile IsDigitCh)) := by
      rw [ha, hb]
      exact fun hne => hne hveq
    simp only [NaturalLess, NaturalLessFuel]
    rw [if_neg hcond, if_neg hcons, if_pos hdd, if_neg hveq', ha, hb, if_pos hlen]
  · exact runVal_mod
  · intro run hdig hlen
    have h1 := runVal_mod run
    have h2 := specMagnitude_lt run hdig
    have h3 : (10 : Nat) ^ run.length ≤ 10 ^ 19 :=
      Nat.pow_le_pow_right (by omega) hlen
    have h4 : specMagnitude run < 2 ^ 64 :=
      lt_of_lt_of_le h2 (le_trans h3 (by norm_num))
    rw [h1, Nat.mod_eq_of_lt h4]

/-- C1 (witness): the digit step decides `"2"` against `"10"` by value and
`"2"` against `"02"` by run length. -/
theorem naturalLess_digit_step_witness :
    NaturalLess ['2'] ['1', '0'] =
      decide (runVal (List.takeWhile IsDigitCh ['2']) <
        runVal (List.takeWhile IsDigitCh ['1', '0'])) ∧
    NaturalLess ['2'] ['0', '2'] =
      decide ((List.takeWhile IsDigitCh ['2']).length <
        (List.takeWhile IsDigitCh ['0', '2']).length) :=
  ⟨(naturalLess_digit_step ['2'] ['1', '0'] [] ['0'] '2' '1'
      (by decide) (by decide) (by decide) (by decide)).1 (by decide),
   (naturalLess_digit_step ['2'] ['0', '2'] [] ['2'] '2' '0'
      (by decide) (by decide) (by decide) (by decide)).2.1 (by decide) (by decide)⟩

/-- C1 (counterexample): the claim orders digit runs of any length by
their numeric magnitude, the smaller comparing Less.  The 20-digit run
`18446744073709551616` (2^64) has magnitude strictly greater than `2`,
so by the claim it must not compare Less than `"2"`; but the source
accumulates into a wrapping 64-bit register, obtaining 0, and returns
Less.  The comparison is inverted on both sides. -/
theorem naturalLess_magnitude_counterexample :
    specMagnitude (List.takeWhile IsDigitCh (("18446744073709551616").data)) = 2 ^ 64 ∧
    specMagnitude (List.takeWhile IsDigitCh (("2").data)) = 2 ∧
    NaturalLess (("18446744073709551616").data) (("2").data) = true ∧
    NaturalLess (("2").data) (("18446744073709551616").data) = false := by decide

/-! ## C2 -/

/-- C2 (amended): every admissible result of the sort on line 97 is a
permutation of the scanned candidates ordered by `NaturalLess`, and the
empty input admits only the empty output; the relative order of names
that compare Equal is unspecified, since `std::sort` is not a stable
sort.  As a concrete instance of the ordering, the example input
`["save2", "save10", "save1"]`, which has no Equal-comparing pair,
admits only the output `["save1", "save2", "save10"]` (third conjunct —
an instance, not a general uniqueness statement). -/
theorem rank_sorted_outcomes :
    (∀ out, SortOutcome [] out → out = []) ∧
    (∀ inp out, SortOutcome inp out → out.Perm inp ∧ sortedByNatural out = true) ∧
    (∀ out, SortOutcome [("save2").data, ("save10").data, ("save1").data] out →
      out = [("save1").data, ("save2").data, ("save10").data]) := by
  refine ⟨?_, ?_, ?_⟩
  · intro out h
    have hlen := h.1.length_eq
    exact List.length_eq_zero.mp hlen.symm
  · intro inp out h
    exact ⟨h.1.symm, h.2⟩
  · intro out h
    have hp : out ∈ ([("save2").data, ("save10").data, ("save1").data]).permutations' :=
      List.mem_permutations'.mpr h.1.symm
    have e : ([("save2").data, ("save10").data, ("save1").data]).permutations' =
        [[("save2").data, ("save10").data, ("save1").data],
         [("save10").data, ("save2").data, ("save1").data],
         [("save10").data, ("save1").data, ("save2").data],
         [("save2").data, ("save1").data, ("save10").data],
         [("save1").data, ("save2").data, ("save10").data],
         [("save1").data, ("save10").data, ("save2").data]] := by decide
    rw [e] at hp
    have h2 := h.2
    fin_cases hp
    · exact absurd h2 (by decide)
    · exact absurd h2 (by decide)
    · exact absurd h2 (by decide)
    · exact absurd h2 (by decide)
    · rfl
    · exact absurd h2 (by decide)

/-- C2 (witness): the strictly ordered instance. -/
theorem rank_sorted_outcomes_witness :
    [("save1").data, ("save2").data, ("save10").data] =
      [("save1").data, ("save2").data, ("save10").data] :=
  rank_sorted_outcomes.2.2 [("save1").data, ("save2").data, ("save10").data]
    ⟨by decide, by decide⟩

/-- C2 (counterexample): the claim requires every ranked output to keep
Equal-comparing names in input order.  `"bf2savefile_10.sav"` and
`"bf2savefile-10.sav"` compare Equal (separators are elided), so for the
input listing them in that order the claim forces that same order in the
output; but the reversed list is also an admissible result of
`std::sort` with `NaturalLess` — it is a permutation and is ordered by
the comparator — and it differs from the claimed output.  `std::sort`
gives no stability guarantee that would exclude it. -/
theorem rank_stability_counterexample :
    SortOutcome [("bf2savefile_10.sav").data, ("bf2savefile-10.sav").data]
      [("bf2savefile-10.sav").data, ("bf2savefile_10.sav").data] ∧
    NaturalLess (("bf2savefile_10.sav").data) (("bf2savefile-10.sav").data) = false ∧
    NaturalLess (("bf2savefile-10.sav").data) (("bf2savefile_10.sav").data) = false ∧
    ([("bf2savefile-10.sav").data, ("bf2savefile_10.sav").data] : List (List Char)) ≠
      [("bf2savefile_10.sav").data, ("bf2savefile-10.sav").data] := by
  refine ⟨⟨List.Perm.swap _ _ _, by decide⟩, by decide, by decide, by decide⟩

/-! ## C3 -/

/-- C3 (confirmed): if `directory/chosenName` exists with content `X` and
the promote succeeds (`ec` not set), then afterwards
`directory/bf2savefile.sav` holds exactly `X`, whatever content it held
before — the copy with `overwrite_existing` is a whole-file replace. -/
theorem promote_success_replaces (d : List Char → Option (List Nat))
    (folder sel : List Char) (pin copyIoFail cfgWritable : Bool)
    (oldCfg : Option (List Char)) (X : List Nat)
    (hsrc : d sel = some X)
    (hok : (promoteStep d folder sel pin copyIoFail cfgWritable oldCfg).err = none) :
    (promoteStep d folder sel pin copyIoFail cfgWritable oldCfg).files activeName =
      some X := by
  by_cases h1 : sel ≠ [] ∧ (d sel).isSome
  · by_cases h2 : sel = activeName
    · subst h2
      obtain ⟨h1a, h1b⟩ := h1
      simp [promoteStep, h1a, h1b] at hok
    · by_cases h3 : copyIoFail = true
      · simp [promoteStep, h1, h2, h3] at hok
      · simp only [Bool.not_eq_true] at h3
        simp [promoteStep, h1, h2, h3, Function.update_same, hsrc]
  · simp [promoteStep, h1] at hok

/-- C3 (witness): promoting `bf2savefile1.sav` (content `[1]`) over an
existing `bf2savefile.sav` leaves the destination with content `[1]`. -/
theorem promote_success_replaces_witness :
    (promoteStep
      (fun n => if n = ("bf2savefile1.sav").data then some [1]
                else if n = activeName then some [9] else none)
      (("C:").data) (("bf2savefile1.sav").data) true false true none).files activeName =
      some [1] :=
  promote_success_replaces _ _ _ _ _ _ _ _ (by decide) (by decide)

/-! ## C4 -/

/-- C4 (confirmed): a promote whose non-empty chosen name does not exist
in the directory at call time sets `ec = no_such_file_or_directory`
(SourceMissing) and performs no copy: the directory contents, in
particular the destination `bf2savefile.sav`, are unchanged. -/
theorem promote_missing_source (d : List Char → Option (List Nat))
    (folder sel : List Char) (pin copyIoFail cfgWritable : Bool)
    (oldCfg : Option (List Char))
    (hsel : sel ≠ []) (hmiss : d sel = none) :
    (promoteStep d folder sel pin copyIoFail cfgWritable oldCfg).err =
      some PromoteErr.sourceMissing ∧
    (promoteStep d folder sel pin copyIoFail cfgWritable oldCfg).files = d := by
  have hcond : ¬ (sel ≠ [] ∧ (d sel).isSome) := by
    simp [hmiss]
  constructor
  · simp [promoteStep, hcond]
  · simp [promoteStep, hcond]

/-- C4 (witness): promoting the absent `bf2savefile2.sav` from the demo
directory fails with SourceMissing and leaves the directory unchanged. -/
theorem promote_missing_source_witness :
    (promoteStep demoDir (("C:").data) (("bf2savefile2.sav").data)
      true false true none).err = some PromoteErr.sourceMissing ∧
    (promoteStep demoDir (("C:").data) (("bf2savefile2.sav").data)
      true false true none).files = demoDir :=
  promote_missing_source demoDir _ _ true false true none (by decide) (by decide)

/-! ## C5 -/

/-- C5 (confirmed): `SaveConfig(folder, selectedFile, pinChecked)` is
invoked after the copy block on every IDOK activation, with the current
directory text, selection and pin state, regardless of the copy outcome;
when the config file can be opened it then holds exactly those three
values. -/
theorem promote_always_saves (d : List Char → Option (List Nat))
    (folder sel : List Char) (pin copyIoFail cfgWritable : Bool)
    (oldCfg : Option (List Char)) :
    (promoteStep d folder sel pin copyIoFail cfgWritable oldCfg).saveCall =
      ⟨folder, sel, pin⟩ ∧
    (cfgWritable = true →
      (promoteStep d folder sel pin copyIoFail cfgWritable oldCfg).configFile =
        some (saveConfigContent folder sel pin)) := by
  refine ⟨rfl, fun h => ?_⟩
  simp [promoteStep, h]

/-- C5 (witness): even a promote that fails (empty selection) still saves
the current state. -/
theorem promote_always_saves_witness :
    (promoteStep demoDir (("C:").data) [] false true true none).saveCall =
      ⟨("C:").data, [], false⟩ ∧
    (promoteStep demoDir (("C:").data) [] false true true none).configFile =
      some (saveConfigContent (("C:").data) [] false) :=
  ⟨(promote_always_saves demoDir (("C:").data) [] false true true none).1,
   (promote_always_saves demoDir (("C:").data) [] false true true none).2 rfl⟩

/-! ## C6 -/

/-- C6 (counterexample): the claim says `ConfigStore.save` returns
Success or Failure and that an unopenable config location is reported to
the caller.  `SaveConfig` (main.cpp line 136) returns `void` and never
examines the stream.  Concretely: run the same successful promote once
with the config file unwritable and once with it writable; the error
code and the displayed status are identical ("Success!" in both runs),
while in the unwritable run the config file silently keeps its stale old
content, which differs from what save was asked to write.  No
ConfigUnwritable outcome is surfaced anywhere. -/
theorem saveConfig_silent_counterexample :
    (promoteStep demoDir (("C:").data) (("bf2savefile1.sav").data) true false false
        (some (("old").data))).err =
      (promoteStep demoDir (("C:").data) (("bf2savefile1.sav").data) true false true
        (some (("old").data))).err ∧
    (promoteStep demoDir (("C:").data) (("bf2savefile1.sav").data) true false false
        (some (("old").data))).err = none ∧
    statusText (promoteStep demoDir (("C:").data) (("bf2savefile1.sav").data) true false false
        (some (("old").data))) = ("Success!").data ∧
    (promoteStep demoDir (("C:").data) (("bf2savefile1.sav").data) true false false
        (some (("old").data))).configFile = some (("old").data) ∧
    ("old").data ≠ saveConfigContent (("C:").data) (("bf2savefile1.sav").data) true := by
  refine ⟨rfl, ?_, ?_, rfl, by decide⟩
  · decide
  · decide

/-- C6 (amended): `SaveConfig` returns no status (`void`).  When the
config location cannot be opened for writing, nothing is written — the
prior content stays — and nothing is surfaced: the error code and the
status message of the promote are exactly those of the same promote with
a writable config file, i.e. they depend only on the copy outcome. -/
theorem saveConfig_silent (d : List Char → Option (List Nat))
    (folder sel : List Char) (pin copyIoFail : Bool) (oldCfg : Option (List Char)) :
    (promoteStep d folder sel pin copyIoFail false oldCfg).configFile = oldCfg ∧
    (promoteStep d folder sel pin copyIoFail false oldCfg).err =
      (promoteStep d folder sel pin copyIoFail true oldCfg).err ∧
    statusText (promoteStep d folder sel pin copyIoFail false oldCfg) =
      statusText (promoteStep d folder sel pin copyIoFail true oldCfg) := by
  exact ⟨rfl, rfl, rfl⟩

/-! ## C7 -/

/-- Splitting at the first newline after a newline-free segment. -/
theorem getLines_break (xs rest : List Char) (h : '\n' ∉ xs) :
    getLines (xs ++ '\n' :: rest) = xs :: getLines rest := by
  induction xs with
  | nil => simp [getLines]
  | cons x xs ih =>
    have hx : ¬ x = '\n' := by
      intro e
      exact h (e ▸ List.mem_cons_self x xs)
    have h' : '\n' ∉ xs := fun m => h (List.mem_cons_of_mem _ m)
    simp [getLines, hx, ih h']

/-- C7 (confirmed): saving a persisted state and loading the written
content returns the same directory, file name and pin flag.  The
hypotheses restrict the two text values to newline-free strings; every
character legal in a Windows path or filename satisfies this (control
characters, newline included, are not), so the full path/filename
repertoire round-trips. -/
theorem config_roundtrip (folder file : List Char) (pin : Bool)
    (hf : '\n' ∉ folder) (hl : '\n' ∉ file) :
    loadConfigContent (saveConfigContent folder file pin) = ⟨folder, file, pin⟩ := by
  have hk1 : '\n' ∉ ("directory=").data := by decide
  have hk2 : '\n' ∉ ("file=").data := by decide
  have h1 : '\n' ∉ ("directory=").data ++ folder := by
    intro m
    rcases List.mem_append.mp m with m | m
    · exact hk1 m
    · exact hf m
  have h2 : '\n' ∉ ("file=").data ++ file := by
    intro m
    rcases List.mem_append.mp m with m | m
    · exact hk2 m
    · exact hl m
  cases pin
  · have h3 : '\n' ∉ ("pin=").data ++ (if false then ['1'] else ['0']) := by decide
    show loadConfigContent (saveConfigContent folder file false) = _
    unfold loadConfigContent saveConfigContent
    rw [getLines_break _ _ h1, getLines_break _ _ h2, getLines_break _ _ h3]
    rfl
  · have h3 : '\n' ∉ ("pin=").data ++ (if true then ['1'] else ['0']) := by decide
    show loadConfigContent (saveConfigContent folder file true) = _
    unfold loadConfigContent saveConfigContent
    rw [getLines_break _ _ h1, getLines_break _ _ h2, getLines_break _ _ h3]
    rfl

/-- C7 (witness): the spec's example state round-trips. -/
theorem config_roundtrip_witness :
    loadConfigContent
        (saveConfigContent (("/a/b").data) (("bf2savefile1.sav").data) true) =
      ⟨("/a/b").data, ("bf2savefile1.sav").data, true⟩ :=
  config_roundtrip (("/a/b").data) (("bf2savefile1.sav").data) true
    (by decide) (by decide)

/-! ## C8 -/

/-- C8 (confirmed): scanning a path that does not exist, is not a
directory, or cannot be read yields the empty candidate list without any
error outcome (the function has no error channel — soft fail); otherwise
a name is listed exactly when some direct-child entry carries it, is a
regular file, and has the literal `bf2savefile` as a prefix of its raw
name at position 0. -/
theorem scan_filter_spec :
    (∀ dirIsDir readable entries,
      scanCandidates false dirIsDir readable entries = []) ∧
    (∀ dirExists readable entries,
      scanCandidates dirExists false readable entries = []) ∧
    (∀ entries, scanCandidates true true false entries = []) ∧
    (∀ entries x, x ∈ scanCandidates true true true entries ↔
      ∃ e ∈ entries, e.kind = FileKind.regular ∧
        keyMatch bf2Token e.name = true ∧ e.name = x) := by
  have hok : ∀ entries, scanCandidates true true true entries =
      (entries.filter
        (fun e => decide (e.kind = FileKind.regular) && keyMatch bf2Token e.name)).map
        DirEntry.name := fun entries => rfl
  refine ⟨?_, ?_, ?_, ?_⟩
  · intro dirIsDir readable entries
    rfl
  · intro dirExists readable entries
    simp [scanCandidates]
  · intro entries
    rfl
  · intro entries x
    rw [hok]
    simp only [List.mem_map, List.mem_filter, Bool.and_eq_true, decide_eq_true_eq]
    constructor
    · rintro ⟨e, ⟨he, hk, hp⟩, hn⟩
      exact ⟨e, he, hk, hp, hn⟩
    · rintro ⟨e, he, hk, hp, hn⟩
      exact ⟨e, ⟨he, hk, hp⟩, hn⟩

/-! ## C10 -/

/-- C10 (confirmed): the fixed destination name `bf2savefile.sav` itself
satisfies the `bf2savefile` prefix filter, so whenever it exists in the
directory as a regular file the scan lists it among the candidates and it
can be chosen in the dropdown as a promotion source. -/
theorem scan_includes_active (entries : List DirEntry)
    (h : (⟨activeName, FileKind.regular⟩ : DirEntry) ∈ entries) :
    keyMatch bf2Token activeName = true ∧
    activeName ∈ scanCandidates true true true entries := by
  have hok : scanCandidates true true true entries =
      (entries.filter
        (fun e => decide (e.kind = FileKind.regular) && keyMatch bf2Token e.name)).map
        DirEntry.name := rfl
  refine ⟨by decide, ?_⟩
  rw [hok]
  simp only [List.mem_map, List.mem_filter]
  exact ⟨⟨activeName, FileKind.regular⟩, ⟨h, by decide⟩, rfl⟩

/-- C10 (witness): a one-entry directory containing only the active file. -/
theorem scan_includes_active_witness :
    keyMatch bf2Token activeName = true ∧
    activeName ∈ scanCandidates true true true [⟨activeName, FileKind.regular⟩] :=
  scan_includes_active [⟨activeName, FileKind.regular⟩] (List.mem_singleton.mpr rfl)
